import Mathlib

/-!
Verification of the E4 dashboard core (`src/app.py`) against its specification.

Modelling conventions
* Python floats are modelled as `Option ℚ`: `none` stands for NaN, and every
  comparison against NaN is false, as in Python (`pfGe`, `pfGt`, `pfLe`).
* Python datetimes on the hourly-selector path are modelled as `ℤ` seconds of
  naive local wall-clock time in the reference timezone; hourly timestamps from
  the provider are minute-aligned canonical strings, so string equality of the
  formatted hour coincides with equality of the integer value.
* Python strings on the time-parser path are modelled as `List Char`;
  `datetime.fromisoformat` together with the timezone anchoring of the
  `"T"` branch is kept abstract as a parameter `fromiso : List Char → Option DT`.
* The process-global cache dict is modelled as an association list threaded
  through `get_cached_route` explicitly; the upstream HTTP fetch is a parameter
  `fetch : ℚ → ℚ → Except String (CurSample × HourlyData)`, `error` standing for
  a raised `requests` exception (timeout / non-success / malformed payload).
-/

namespace E4

/-- A Python float: `none` is NaN. -/
abbrev PyFloat := Option ℚ

/-- Python `a >= q` where `a` may be NaN (NaN compares false). -/
def pfGe (a : PyFloat) (q : ℚ) : Bool :=
  match a with
  | none => false
  | some v => decide (q ≤ v)

/-- Python `a > q` where `a` may be NaN (NaN compares false). -/
def pfGt (a : PyFloat) (q : ℚ) : Bool :=
  match a with
  | none => false
  | some v => decide (q < v)

/-- Python `a <= q` where `a` may be NaN (NaN compares false). -/
def pfLe (a : PyFloat) (q : ℚ) : Bool :=
  match a with
  | none => false
  | some v => decide (v ≤ q)

/-- Function `risk(temp, p, wind, code)` from `src/app.py` lines 51-67, verbatim rule
order; the chained Python `-1 <= temp <= 1` is the conjunction of the two
comparisons. -/
def risk (temp p wind : PyFloat) (code : ℤ) : String × String :=
  let snow : Bool := (decide (71 ≤ code) && decide (code ≤ 77)) || decide (code = 85) || decide (code = 86)
  let freeze : Bool := decide (code = 66) || decide (code = 67)
  if pfGe wind 15 then ("RÖD", "Mycket blåsigt (≥15 m/s)")
  else if pfGt p 0 && (pfGe temp (-1) && pfLe temp 1) then ("RÖD", "Nederbörd runt 0°C (halka-risk)")
  else if freeze then ("RÖD", "Underkylt/frysregn")
  else if snow && pfGe p 0.5 then ("RÖD", "Snöfall")
  else if snow || pfGt p 0 || pfGe wind 10 then ("GUL", "Vinterförhållanden")
  else ("GRÖN", "Stabilt")

/-- Risk levels of the spec (§3): ordered enumeration GREEN < YELLOW < RED. -/
inductive RLevel
  | green
  | yellow
  | red
deriving DecidableEq, Repr

/-- The six reasons of spec §4.1. -/
inductive RReason
  | highWind
  | nearFreezing
  | freezingRain
  | heavySnow
  | winter
  | stable
deriving DecidableEq, Repr

/-- The Risk Classifier as worded in spec §4.1: six rules, first match wins. -/
def riskSpec (temp p wind : ℚ) (code : ℤ) : RLevel × RReason :=
  if 15 ≤ wind then (.red, .highWind)
  else if 0 < p ∧ (-1 ≤ temp ∧ temp ≤ 1) then (.red, .nearFreezing)
  else if code = 66 ∨ code = 67 then (.red, .freezingRain)
  else if (((71 ≤ code ∧ code ≤ 77) ∨ code = 85) ∨ code = 86) ∧ (0.5 : ℚ) ≤ p then (.red, .heavySnow)
  else if ((((71 ≤ code ∧ code ≤ 77) ∨ code = 85) ∨ code = 86) ∨ 0 < p) ∨ 10 ≤ wind then (.yellow, .winter)
  else (.green, .stable)

/-- Map the source's Swedish level string to the spec's level. -/
def levelOf (s : String) : Option RLevel :=
  if s = "RÖD" then some .red
  else if s = "GUL" then some .yellow
  else if s = "GRÖN" then some .green
  else none

/-- Map the source's Swedish reason string to the spec's reason. -/
def reasonOf (s : String) : Option RReason :=
  if s = "Mycket blåsigt (≥15 m/s)" then some .highWind
  else if s = "Nederbörd runt 0°C (halka-risk)" then some .nearFreezing
  else if s = "Underkylt/frysregn" then some .freezingRain
  else if s = "Snöfall" then some .heavySnow
  else if s = "Vinterförhållanden" then some .winter
  else if s = "Stabilt" then some .stable
  else none

/-- The `"current"` object of a cached waypoint payload: each field may be
absent (`j.get("current", \x7b\x7d)` can lack any key). -/
structure CurSample where
  temperature_2m : Option ℚ
  precipitation : Option ℚ
  wind_speed_10m : Option ℚ
  weather_code : Option ℤ
deriving DecidableEq, Repr

/-- The "now" extraction of `src/app.py` lines 196-200: a missing numeric field
reads as NaN (`float("nan")`) and a missing weather code as `-1`. -/
def now_values (cur : CurSample) : PyFloat × PyFloat × PyFloat × ℤ :=
  (cur.temperature_2m, cur.precipitation, cur.wind_speed_10m, cur.weather_code.getD (-1))

/-- The "now" assessment of `src/app.py` line 201. -/
def now_risk (cur : CurSample) : String × String :=
  risk (now_values cur).1 (now_values cur).2.1 (now_values cur).2.2.1 (now_values cur).2.2.2

/-- C1: on well-formed (non-NaN) inputs the source classifier `risk` realises
exactly the six ordered rules of spec §4.1 (first match wins), for every
temperature, precipitation, wind and integer weather code including unknown
ones; and at wind=20, temp=0, precip=1, code=67 rule 1 wins over the
freezing-rain rule, giving RED with the high-wind reason. -/
theorem risk_matches_spec :
    (∀ (temp p wind : ℚ) (code : ℤ),
      levelOf (risk (some temp) (some p) (some wind) code).1 = some (riskSpec temp p wind code).1 ∧
      reasonOf (risk (some temp) (some p) (some wind) code).2 = some (riskSpec temp p wind code).2) ∧
    risk (some 0) (some 1) (some 20) 67 = ("RÖD", "Mycket blåsigt (≥15 m/s)") := by
  refine ⟨fun temp p wind code => ?_, by decide⟩
  simp only [risk, riskSpec, pfGe, pfGt, pfLe, Bool.and_eq_true, Bool.or_eq_true,
    decide_eq_true_eq]
  split_ifs <;> simp_all [levelOf, reasonOf]

/-- C10: a fully absent current sample is read as (NaN, NaN, NaN, -1) and the
classifier then answers GREEN with the stable reason; the "now" path never
produces the no-data sentinel for any current sample. -/
theorem now_risk_of_missing :
    now_values ⟨none, none, none, none⟩ = (none, none, none, -1) ∧
    now_risk ⟨none, none, none, none⟩ = ("GRÖN", "Stabilt") ∧
    (∀ cur : CurSample, (now_risk cur).1 = "RÖD" ∨ (now_risk cur).1 = "GUL" ∨
      (now_risk cur).1 = "GRÖN") := by
  refine ⟨rfl, by decide, fun cur => ?_⟩
  simp only [now_risk, risk]
  split_ifs <;> decide

/-! ## Time Parser (`parse_start_time`, `src/app.py` lines 69-86)

A timezone-anchored datetime is modelled by its calendar fields in the
reference timezone; `day` is the ordinal date. `datetime.fromisoformat`
followed by the timezone anchoring of the `"T"` branch is abstracted as a
parameter, since the claims never inspect a successful ISO parse. -/

/-- A timezone-anchored datetime in the reference timezone (calendar fields). -/
structure DT where
  day : ℤ
  hour : ℤ
  minute : ℤ
  second : ℤ
  micro : ℤ
deriving DecidableEq, Repr

/-- The whitespace characters stripped by Python's `str.strip` (the common
ASCII ones; the source never feeds the exotic Unicode spaces). -/
def wsp (c : Char) : Bool :=
  c = ' ' || c = '\t' || c = '\n' || c = '\r'

/-- Python `str.strip()` on a char-list string. -/
def listTrim (cs : List Char) : List Char :=
  ((cs.dropWhile wsp).reverse.dropWhile wsp).reverse

/-- Value of a nonempty all-digit char list, else `none`. -/
def natOfDigits (cs : List Char) : Option ℕ :=
  if cs ≠ [] ∧ cs.all Char.isDigit then
    some (cs.foldl (fun a c => a * 10 + (c.toNat - 48)) 0)
  else none

/-- Core of Python `int(str)` after stripping: one optional sign, then digits.
(Underscore digit separators are omitted: this parser only ever receives the
two-character slices `s[:2]` and `s[3:]` of a five-character string, where a
separator cannot legally occur.) -/
def pyIntCore : List Char → Option ℤ
  | [] => none
  | c :: rest =>
    if c = '+' then (natOfDigits rest).map Int.ofNat
    else if c = '-' then (natOfDigits rest).map (fun n => -(n : ℤ))
    else (natOfDigits (c :: rest)).map Int.ofNat

/-- Python `int(str)`. -/
def pyInt (cs : List Char) : Option ℤ :=
  pyIntCore (listTrim cs)

/-- Python `now.replace(hour=hh, minute=mm, second=0, microsecond=0)`:
`none` models the `ValueError` raised on an out-of-range field. -/
def replaceHM (now : DT) (hh mm : ℤ) : Option DT :=
  if 0 ≤ hh ∧ hh ≤ 23 ∧ 0 ≤ mm ∧ mm ≤ 59 then
    some ⟨now.day, hh, mm, 0, 0⟩
  else none

/-- The five-character `HH:MM` branch of `parse_start_time` (source lines
80-83), reached when the stripped string has length 5 with `":"` at index 2.
The `Option.bind` chain mirrors the sequential Python statements
`hh = int(s[:2]); mm = int(s[3:]); return now.replace(...)`: a failure
(exception) at any of the three steps falls through to `now`. -/
def hhmm_branch (now : DT) : List Char → DT
  | [a, b, c, d, e] =>
    if c = ':' then
      ((pyInt [a, b]).bind fun hh =>
        (pyInt [d, e]).bind fun mm => replaceHM now hh mm).getD now
    else now
  | _ => now

/-- Function `parse_start_time` from `src/app.py` lines 69-86. `fromiso` abstracts the
`"T" in s` branch (ISO parse plus timezone anchoring), `none` standing for a
raised exception there. -/
def parse_start_time (fromiso : List Char → Option DT) (now : DT) :
    Option (List Char) → DT
  | none => now
  | some s0 =>
    if s0 = [] then now
    else
      let s := listTrim s0
      if 'T' ∈ s then (fromiso s).getD now
      else hhmm_branch now s

lemma isDigit_ne (c x : Char) (h : c.isDigit = true) (hx : x.isDigit = false) :
    c ≠ x := by
  intro he
  rw [he, hx] at h
  exact Bool.false_ne_true h

lemma not_wsp_of_isDigit (c : Char) (h : c.isDigit = true) : wsp c = false := by
  by_contra hw
  rw [Bool.not_eq_false] at hw
  unfold wsp at hw
  simp only [Bool.or_eq_true, decide_eq_true_eq] at hw
  rcases hw with ((h1 | h1) | h1) | h1 <;> (subst h1; exact absurd h (by decide))

lemma listTrim_pair (h1 h2 : Char) (hd1 : h1.isDigit = true) (hd2 : h2.isDigit = true) :
    listTrim [h1, h2] = [h1, h2] := by
  unfold listTrim
  rw [List.dropWhile_cons_of_neg (by simp [not_wsp_of_isDigit _ hd1])]
  simp only [List.reverse_cons, List.reverse_nil, List.nil_append, List.cons_append,
    List.singleton_append]
  rw [List.dropWhile_cons_of_neg (by simp [not_wsp_of_isDigit _ hd2])]
  simp

lemma pyInt_two_digits (h1 h2 : Char) (hd1 : h1.isDigit = true) (hd2 : h2.isDigit = true) :
    pyInt [h1, h2] = some (((h1.toNat - 48) * 10 + (h2.toNat - 48) : ℕ) : ℤ) := by
  unfold pyInt
  rw [listTrim_pair h1 h2 hd1 hd2, pyIntCore]
  rw [if_neg (isDigit_ne h1 '+' hd1 (by decide)), if_neg (isDigit_ne h1 '-' hd1 (by decide))]
  unfold natOfDigits
  rw [if_pos ⟨by simp, by simp [hd1, hd2]⟩]
  simp [List.foldl]

/-- Every outcome of the `HH:MM` branch is either the fallback `now` or a
successful wall-clock replacement. -/
lemma hhmm_branch_cases (now : DT) (s : List Char) :
    hhmm_branch now s = now ∨
    ∃ dt hh mm, replaceHM now hh mm = some dt ∧ hhmm_branch now s = dt := by
  unfold hhmm_branch
  split
  · rename_i a b c d e
    split
    · cases hab : pyInt [a, b] with
      | none => left; simp
      | some hh =>
        cases hde : pyInt [d, e] with
        | none => left; simp
        | some mm =>
          cases hre : replaceHM now hh mm with
          | none => left; simp [hre]
          | some dt => right; exact ⟨dt, hh, mm, hre, by simp [hre]⟩
    · left; rfl
  · left; rfl

/-- C7: the Time Parser (a) returns the reference now on an empty or absent
input, (b) maps a (stripped) string of shape two digits, colon, two digits
denoting a valid wall-clock time to today's date at that time with seconds and
sub-seconds zeroed, and (c) never raises: every output is the reference now, a
successful ISO-branch parse, or a successful wall-clock replacement — so any
parse failure at any step yields the reference now. -/
theorem parse_start_time_spec (fromiso : List Char → Option DT) (now : DT) :
    (parse_start_time fromiso now none = now ∧
      parse_start_time fromiso now (some []) = now) ∧
    (∀ (s0 : List Char) (h1 h2 m1 m2 : Char),
      listTrim s0 = [h1, h2, ':', m1, m2] →
      h1.isDigit = true → h2.isDigit = true → m1.isDigit = true → m2.isDigit = true →
      ((h1.toNat - 48) * 10 + (h2.toNat - 48) : ℕ) ≤ 23 →
      ((m1.toNat - 48) * 10 + (m2.toNat - 48) : ℕ) ≤ 59 →
      parse_start_time fromiso now (some s0) =
        ⟨now.day, (((h1.toNat - 48) * 10 + (h2.toNat - 48) : ℕ) : ℤ),
          (((m1.toNat - 48) * 10 + (m2.toNat - 48) : ℕ) : ℤ), 0, 0⟩) ∧
    (∀ s0 : List Char,
      parse_start_time fromiso now (some s0) = now ∨
      (∃ dt, fromiso (listTrim s0) = some dt ∧ parse_start_time fromiso now (some s0) = dt) ∨
      (∃ dt hh mm, replaceHM now hh mm = some dt ∧
        parse_start_time fromiso now (some s0) = dt)) := by
  refine ⟨⟨rfl, rfl⟩, ?_, ?_⟩
  · intro s0 h1 h2 m1 m2 hs hd1 hd2 hd3 hd4 hh23 hm59
    have hne : s0 ≠ [] := by
      intro h
      rw [h] at hs
      simp [listTrim] at hs
    have hT : 'T' ∉ ([h1, h2, ':', m1, m2] : List Char) := by
      intro hmem
      simp only [List.mem_cons, List.not_mem_nil, or_false] at hmem
      rcases hmem with h | h | h | h | h
      · exact isDigit_ne h1 'T' hd1 (by decide) h.symm
      · exact isDigit_ne h2 'T' hd2 (by decide) h.symm
      · exact absurd h (by decide)
      · exact isDigit_ne m1 'T' hd3 (by decide) h.symm
      · exact isDigit_ne m2 'T' hd4 (by decide) h.symm
    rw [parse_start_time, if_neg hne]
    simp only [hs, if_neg hT]
    rw [hhmm_branch, if_pos rfl, pyInt_two_digits h1 h2 hd1 hd2,
      pyInt_two_digits m1 m2 hd3 hd4]
    simp only [Option.some_bind]
    rw [replaceHM, if_pos ⟨Int.natCast_nonneg _, by exact_mod_cast hh23,
      Int.natCast_nonneg _, by exact_mod_cast hm59⟩]
    rfl
  · intro s0
    rw [parse_start_time]
    by_cases h0 : s0 = []
    · rw [if_pos h0]; left; rfl
    · rw [if_neg h0]
      by_cases hT : 'T' ∈ listTrim s0
      · simp only [if_pos hT]
        cases hfi : fromiso (listTrim s0) with
        | none => left; rfl
        | some dt => right; left; exact ⟨dt, rfl, rfl⟩
      · simp only [if_neg hT]
        rcases hhmm_branch_cases now (listTrim s0) with h | ⟨dt, hh, mm, hre, h⟩
        · left; exact h
        · right; right; exact ⟨dt, hh, mm, hre, h⟩

/-! ## Hourly Selector (`choose_hourly_at_eta`, `src/app.py` lines 88-109)

Instants are `ℤ` seconds of naive wall-clock time in the reference timezone.
The provider's hourly timestamps are minute-aligned canonical strings, so the
source's comparison of `strftime("%Y-%m-%dT%H:00")` output against an entry
string coincides with equality of the underlying instants, and
`datetime.fromisoformat` on an entry always succeeds; the selector returns the
chosen index into the parallel hourly arrays. -/

/-- Python `eta_dt.replace(minute=0, second=0, microsecond=0)`: wall-clock floor to
the top of the hour (Python `%` on a positive modulus is non-negative, as is
`Int.emod`). -/
def floorHour (t : ℤ) : ℤ :=
  t - t % 3600

/-- Python `times.index(x)` wrapped in try/except: index of the first
occurrence, `none` for `ValueError`. -/
def pyIndex (a : ℤ) : List ℤ → Option ℕ
  | [] => none
  | x :: xs => if x = a then some 0 else (pyIndex a xs).map (· + 1)

/-- Absolute time difference to the target, `abs((t - target).total_seconds())`. -/
def dOf (target t : ℤ) : ℕ :=
  (t - target).natAbs

/-- The `for i, ts in enumerate(times)` scan of source lines 100-108, carried
state `(best_i, best_diff)`; a strict improvement moves the best index. -/
def bestLoop (target : ℤ) : List ℤ → ℕ → ℕ × ℕ → ℕ × ℕ
  | [], _, s => s
  | ts :: rest, i, (bi, b) =>
    if (ts - target).natAbs < b then bestLoop target rest (i + 1) (i, (ts - target).natAbs)
    else bestLoop target rest (i + 1) (bi, b)

/-- The scan with its `best_i = 0, best_diff = None` initialisation: the first
entry always installs itself as the initial best. -/
def scanNearest (times : List ℤ) (target : ℤ) : ℕ :=
  match times with
  | [] => 0
  | t0 :: rest => (bestLoop target rest 1 (0, dOf target t0)).1

/-- Function `choose_hourly_at_eta` from `src/app.py` lines 88-109, returning the
selected index. -/
def choose_hourly_at_eta (times : List ℤ) (eta : ℤ) : Option ℕ :=
  if times = [] then none
  else
    match pyIndex (floorHour eta) times with
    | some i => some i
    | none => some (scanNearest times (floorHour eta))

lemma getD_append_left (l l' : List ℤ) (j : ℕ) (h : j < l.length) :
    (l ++ l').getD j 0 = l.getD j 0 := by
  induction l generalizing j with
  | nil => exact absurd h (by simp)
  | cons x xs ih =>
    cases j with
    | zero => rfl
    | succ k =>
      simp only [List.cons_append, List.getD_cons_succ]
      exact ih k (by simpa using Nat.lt_of_succ_lt_succ h)

lemma getD_append_self (l : List ℤ) (x : ℤ) :
    (l ++ [x]).getD l.length 0 = x := by
  induction l with
  | nil => rfl
  | cons y ys ih => simp [ih]

lemma pyIndex_of_not_mem (a : ℤ) (l : List ℤ) (h : a ∉ l) : pyIndex a l = none := by
  induction l with
  | nil => rfl
  | cons x xs ih =>
    rw [pyIndex, if_neg (fun he => h (by rw [he]; exact List.mem_cons_self _ _)),
      ih (fun hm => h (List.mem_cons_of_mem _ hm))]
    rfl

lemma pyIndex_of_mem (a : ℤ) (l : List ℤ) (h : a ∈ l) :
    ∃ i, pyIndex a l = some i ∧ i < l.length ∧ l.getD i 0 = a ∧
      ∀ j, j < i → l.getD j 0 ≠ a := by
  induction l with
  | nil => cases h
  | cons x xs ih =>
    by_cases hx : x = a
    · exact ⟨0, by rw [pyIndex, if_pos hx], by simp, hx,
        fun j hj => absurd hj (Nat.not_lt_zero j)⟩
    · have hmem : a ∈ xs := by
        rcases List.mem_cons.mp h with h1 | h1
        · exact absurd h1.symm hx
        · exact h1
      obtain ⟨i, hpi, hlen, hval, hfirst⟩ := ih hmem
      refine ⟨i + 1, by rw [pyIndex, if_neg hx, hpi]; rfl,
        by simpa using Nat.succ_lt_succ hlen, by simpa using hval, ?_⟩
      intro j hj
      cases j with
      | zero => simpa using hx
      | succ k =>
        simpa using hfirst k (Nat.lt_of_succ_lt_succ hj)

/-- Loop invariant of the nearest scan: starting from a best candidate that is
the first minimum of the already-scanned prefix, the loop returns the first
minimum of the whole list. -/
lemma bestLoop_spec (target : ℤ) (rest : List ℤ) :
    ∀ (pre : List ℤ) (bi b : ℕ),
      bi < pre.length →
      dOf target (pre.getD bi 0) = b →
      (∀ j, j < pre.length → b ≤ dOf target (pre.getD j 0)) →
      (∀ j, j < bi → b < dOf target (pre.getD j 0)) →
      (bestLoop target rest pre.length (bi, b)).1 < (pre ++ rest).length ∧
      dOf target ((pre ++ rest).getD (bestLoop target rest pre.length (bi, b)).1 0) =
        (bestLoop target rest pre.length (bi, b)).2 ∧
      (∀ j, j < (pre ++ rest).length →
        (bestLoop target rest pre.length (bi, b)).2 ≤ dOf target ((pre ++ rest).getD j 0)) ∧
      (∀ j, j < (bestLoop target rest pre.length (bi, b)).1 →
        (bestLoop target rest pre.length (bi, b)).2 < dOf target ((pre ++ rest).getD j 0)) := by
  induction rest with
  | nil =>
    intro pre bi b hbi hval hmin hstrict
    simp only [bestLoop, List.append_nil]
    exact ⟨hbi, hval, hmin, fun j hj => hstrict j hj⟩
  | cons ts rest ih =>
    intro pre bi b hbi hval hmin hstrict
    rw [bestLoop]
    have hassoc : (pre ++ [ts]) ++ rest = pre ++ ts :: rest := by
      rw [List.append_assoc, List.singleton_append]
    have hlen1 : (pre ++ [ts]).length = pre.length + 1 := by simp
    by_cases hd : (ts - target).natAbs < b
    · rw [if_pos hd]
      have h1 : pre.length < (pre ++ [ts]).length := by simp
      have h2 : dOf target ((pre ++ [ts]).getD pre.length 0) = (ts - target).natAbs := by
        rw [getD_append_self]; rfl
      have h3 : ∀ j, j < (pre ++ [ts]).length →
          (ts - target).natAbs ≤ dOf target ((pre ++ [ts]).getD j 0) := by
        intro j hj
        rcases Nat.lt_or_ge j pre.length with hlt | hge
        · rw [getD_append_left _ _ _ hlt]
          exact Nat.le_of_lt (Nat.lt_of_lt_of_le hd (hmin j hlt))
        · have hje : j = pre.length := by
            rw [hlen1] at hj
            omega
          rw [hje, getD_append_self]
          exact Nat.le_refl _
      have h4 : ∀ j, j < pre.length →
          (ts - target).natAbs < dOf target ((pre ++ [ts]).getD j 0) := by
        intro j hj
        rw [getD_append_left _ _ _ hj]
        exact Nat.lt_of_lt_of_le hd (hmin j hj)
      have := ih (pre ++ [ts]) pre.length (ts - target).natAbs h1 h2 h3 h4
      rw [hlen1, hassoc] at this
      exact this
    · rw [if_neg hd]
      have hble : b ≤ (ts - target).natAbs := Nat.le_of_not_lt hd
      have h1 : bi < (pre ++ [ts]).length := by
        rw [hlen1]; omega
      have h2 : dOf target ((pre ++ [ts]).getD bi 0) = b := by
        rw [getD_append_left _ _ _ hbi]; exact hval
      have h3 : ∀ j, j < (pre ++ [ts]).length → b ≤ dOf target ((pre ++ [ts]).getD j 0) := by
        intro j hj
        rcases Nat.lt_or_ge j pre.length with hlt | hge
        · rw [getD_append_left _ _ _ hlt]
          exact hmin j hlt
        · have hje : j = pre.length := by
            rw [hlen1] at hj
            omega
          rw [hje, getD_append_self]
          exact hble
      have h4 : ∀ j, j < bi → b < dOf target ((pre ++ [ts]).getD j 0) := by
        intro j hj
        rw [getD_append_left _ _ _ (Nat.lt_trans hj hbi)]
        exact hstrict j hj
      have := ih (pre ++ [ts]) bi b h1 h2 h3 h4
      rw [hlen1, hassoc] at this
      exact this

/-- The nearest scan returns the first index minimising the absolute time
difference to the target. -/
lemma scanNearest_spec (times : List ℤ) (target : ℤ) (h : times ≠ []) :
    scanNearest times target < times.length ∧
    (∀ j, j < times.length →
      dOf target (times.getD (scanNearest times target) 0) ≤ dOf target (times.getD j 0)) ∧
    (∀ j, j < scanNearest times target →
      dOf target (times.getD (scanNearest times target) 0) < dOf target (times.getD j 0)) := by
  match times with
  | [] => exact absurd rfl h
  | t0 :: rest =>
    have hspec := bestLoop_spec target rest [t0] 0 (dOf target t0)
      (by simp) rfl
      (by intro j hj
          have : j = 0 := by simpa using hj
          subst this
          exact Nat.le_refl _)
      (by intro j hj
          exact absurd hj (Nat.not_lt_zero j))
    simp only [List.length_cons, List.length_nil, Nat.zero_add, List.singleton_append] at hspec
    rw [scanNearest]
    obtain ⟨hlt, hval, hmin, hstrict⟩ := hspec
    refine ⟨hlt, ?_, ?_⟩
    · intro j hj
      rw [hval]
      exact hmin j hj
    · intro j hj
      rw [hval]
      exact hstrict j hj

/-- C2: the Hourly Selector floors the target to the top of the hour; an empty
series yields no match and a nonempty one always yields one; an exact match on
the floored target returns its first occurrence; otherwise the entry with the
least absolute difference to the floored target is returned, earliest index
winning ties. -/
theorem choose_hourly_at_eta_spec (times : List ℤ) (eta : ℤ) :
    (floorHour eta % 3600 = 0 ∧ 0 ≤ eta - floorHour eta ∧ eta - floorHour eta < 3600) ∧
    (choose_hourly_at_eta times eta = none ↔ times = []) ∧
    (floorHour eta ∈ times →
      ∃ i, choose_hourly_at_eta times eta = some i ∧ i < times.length ∧
        times.getD i 0 = floorHour eta ∧
        ∀ j, j < i → times.getD j 0 ≠ floorHour eta) ∧
    (times ≠ [] → floorHour eta ∉ times →
      ∃ i, choose_hourly_at_eta times eta = some i ∧ i < times.length ∧
        (∀ j, j < times.length →
          (times.getD i 0 - floorHour eta).natAbs ≤ (times.getD j 0 - floorHour eta).natAbs) ∧
        (∀ j, j < i →
          (times.getD i 0 - floorHour eta).natAbs < (times.getD j 0 - floorHour eta).natAbs)) := by
  refine ⟨⟨?_, ?_, ?_⟩, ⟨?_, ?_⟩, ?_, ?_⟩
  · unfold floorHour; omega
  · unfold floorHour; omega
  · unfold floorHour; omega
  · intro h
    by_contra hne
    unfold choose_hourly_at_eta at h
    rw [if_neg hne] at h
    cases hpi : pyIndex (floorHour eta) times <;> rw [hpi] at h <;> simp at h
  · intro h
    subst h
    rfl
  · intro hmem
    have hne : times ≠ [] := by
      intro h
      subst h
      cases hmem
    obtain ⟨i, hpi, hlen, hval, hfirst⟩ := pyIndex_of_mem (floorHour eta) times hmem
    refine ⟨i, ?_, hlen, hval, hfirst⟩
    unfold choose_hourly_at_eta
    rw [if_neg hne, hpi]
  · intro hne hnm
    obtain ⟨hlt, hmin, hstrict⟩ := scanNearest_spec times (floorHour eta) hne
    refine ⟨scanNearest times (floorHour eta), ?_, hlt, ?_, ?_⟩
    · unfold choose_hourly_at_eta
      rw [if_neg hne, pyIndex_of_not_mem (floorHour eta) times hnm]
    · intro j hj
      simpa [dOf] using hmin j hj
    · intro j hj
      simpa [dOf] using hstrict j hj

/-- Witness for C2: entries at 10:00 and 12:00 (seconds of day) with a target
of 10:59 select the 10:00 entry, the floored target matching it exactly. -/
theorem choose_hourly_at_eta_spec_witness :
    ∃ i, choose_hourly_at_eta [36000, 43200] 39540 = some i ∧
      i < ([36000, 43200] : List ℤ).length ∧
      ([36000, 43200] : List ℤ).getD i 0 = floorHour 39540 ∧
      ∀ j, j < i → ([36000, 43200] : List ℤ).getD j 0 ≠ floorHour 39540 :=
  (choose_hourly_at_eta_spec [36000, 43200] 39540).2.2.1 (by decide)

/-- Witness for C7: reference now 2026-01-02T08:00 and input `"10:00"` give
2026-01-02T10:00:00.000000. -/
theorem parse_start_time_spec_witness :
    parse_start_time (fun _ => none) ⟨739618, 8, 0, 0, 0⟩
        (some ['1', '0', ':', '0', '0']) = ⟨739618, 10, 0, 0, 0⟩ :=
  (parse_start_time_spec (fun _ => none) ⟨739618, 8, 0, 0, 0⟩).2.1
    ['1', '0', ':', '0', '0'] '1' '0' '0' '0' (by decide) (by decide) (by decide)
    (by decide) (by decide) (by decide) (by decide)

/-! ## Route Registry and Forecast Cache (`src/app.py` lines 10-49 and 123-150)

The global `CACHE` dict is threaded through `get_cached_route` explicitly; an
`error` result models a raised exception propagating to the caller with the
cache left exactly as passed in — faithful to the source, which assigns
`CACHE[route_id]` only after the whole fetch loop has succeeded. -/

/-- A waypoint of the static route table. -/
structure Waypoint where
  name : String
  lat : ℚ
  lon : ℚ
  distance_km_from_prev : ℚ
deriving DecidableEq, Repr

/-- The hourly payload arrays of a waypoint. -/
structure HourlyData where
  time : List ℤ
  temperature_2m : List (Option ℚ)
  precipitation : List (Option ℚ)
  wind_speed_10m : List (Option ℚ)
  weather_code : List (Option ℤ)
deriving DecidableEq, Repr

/-- One fetched waypoint of a cache entry (`"p"`, `"cur"`, `"hourly"`). -/
structure RawItem where
  p : Waypoint
  cur : CurSample
  hourly : HourlyData
deriving DecidableEq, Repr

/-- A cache entry: fetch instant `ts` (`time.time()`, in seconds) and the
per-waypoint payloads. The display string `"updated"` is derived from the
same instant and carries no further information, so it is not a field. -/
structure Entry where
  ts : ℚ
  raw : List RawItem
deriving DecidableEq, Repr

/-- The per-route cache dict, as an association list. -/
abbrev Cache := List (String × Entry)

/-- The TTL of 600 seconds. -/
def TTL : ℚ := 600

/-- Python `CACHE.get(route_id)`. -/
def cacheGet (c : Cache) (rid : String) : Option Entry :=
  match c with
  | [] => none
  | (k, v) :: rest => if k = rid then some v else cacheGet rest rid

/-- Python `CACHE[route_id] = e`. -/
def cacheSet (c : Cache) (rid : String) (e : Entry) : Cache :=
  match c with
  | [] => [(rid, e)]
  | (k, v) :: rest => if k = rid then (k, e) :: rest else (k, v) :: cacheSet rest rid e

/-- The upstream fetch for one coordinate (`fetch_point`): `error` models a
raised exception — timeout, non-success status (`raise_for_status`) or
malformed payload. -/
abbrev Fetch := ℚ → ℚ → Except String (CurSample × HourlyData)

/-- Whether an `Except` is an `error`. -/
def isErr {α : Type} : Except String α → Bool
  | .error _ => true
  | .ok _ => false

/-- The `for p in route["points"]` fetch loop of `get_cached_route`: the first
raised exception aborts the whole loop. -/
def fetchRoute (fetch : Fetch) : List Waypoint → Except String (List RawItem)
  | [] => .ok []
  | p :: ps =>
    match fetch p.lat p.lon with
    | .error e => .error e
    | .ok (cur, hourly) =>
      match fetchRoute fetch ps with
      | .error e => .error e
      | .ok rest => .ok (⟨p, cur, hourly⟩ :: rest)

/-- The refresh arm of `get_cached_route` (source lines 140-149): on success
the entry for the route id is replaced wholesale; on failure the exception
propagates and the dict is untouched. -/
def refreshRoute (fetch : Fetch) (now : ℚ) (cache : Cache) (rid : String)
    (points : List Waypoint) : Except String Entry × Cache :=
  match fetchRoute fetch points with
  | .error e => (.error e, cache)
  | .ok raw => (.ok ⟨now, raw⟩, cacheSet cache rid ⟨now, raw⟩)

/-- Function `get_cached_route` from `src/app.py` lines 136-150; `points` is
`ROUTES[route_id]["points"]`, looked up by the caller. -/
def get_cached_route (fetch : Fetch) (now : ℚ) (cache : Cache) (rid : String)
    (points : List Waypoint) : Except String Entry × Cache :=
  match cacheGet cache rid with
  | some entry =>
    if now - entry.ts > TTL then refreshRoute fetch now cache rid points
    else (.ok entry, cache)
  | none => refreshRoute fetch now cache rid points

lemma cacheGet_set_self (c : Cache) (rid : String) (e : Entry) :
    cacheGet (cacheSet c rid e) rid = some e := by
  induction c with
  | nil => simp [cacheSet, cacheGet]
  | cons kv rest ih =>
    obtain ⟨k, v⟩ := kv
    by_cases hk : k = rid
    · simp [cacheSet, cacheGet, hk]
    · simp [cacheSet, cacheGet, hk, ih]

lemma cacheGet_set_other (c : Cache) (rid rid' : String) (e : Entry) (h : rid' ≠ rid) :
    cacheGet (cacheSet c rid e) rid' = cacheGet c rid' := by
  have hne : rid ≠ rid' := fun he => h he.symm
  induction c with
  | nil => simp [cacheSet, cacheGet, hne]
  | cons kv rest ih =>
    obtain ⟨k, v⟩ := kv
    by_cases hk : k = rid
    · subst hk
      simp [cacheSet, cacheGet, hne]
    · simp [cacheSet, cacheGet, hk, ih]

/-- If the fetch of any waypoint of the route raises, the whole fetch loop
raises. -/
lemma fetchRoute_error (fetch : Fetch) (points : List Waypoint)
    (h : ∃ p ∈ points, isErr (fetch p.lat p.lon) = true) :
    isErr (fetchRoute fetch points) = true := by
  induction points with
  | nil => obtain ⟨p, hp, _⟩ := h; cases hp
  | cons q ps ih =>
    rw [fetchRoute]
    cases hq : fetch q.lat q.lon with
    | error e => rfl
    | ok pay =>
      obtain ⟨p, hp, hperr⟩ := h
      rcases List.mem_cons.mp hp with h1 | h1
      · subst h1
        rw [hq] at hperr
        exact absurd hperr (by simp [isErr])
      · have := ih ⟨p, h1, hperr⟩
        obtain ⟨cur, hourly⟩ := pay
        cases hfr : fetchRoute fetch ps with
        | error e => rfl
        | ok raw => rw [hfr] at this; exact absurd this (by simp [isErr])

/-- C3: if the refresh is triggered (no prior entry, or a stale one) and the
upstream fetch of any waypoint fails, the whole lookup fails, the error
propagates to the caller, and the cache — in particular the prior entry for
that route id, if any — is left exactly as it was; no partial-route entry is
stored. -/
theorem cache_refresh_failure_atomic (fetch : Fetch) (now : ℚ) (cache : Cache)
    (rid : String) (points : List Waypoint)
    (htrig : cacheGet cache rid = none ∨
      ∃ e, cacheGet cache rid = some e ∧ now - e.ts > TTL)
    (hfail : ∃ p ∈ points, isErr (fetch p.lat p.lon) = true) :
    (∃ msg, (get_cached_route fetch now cache rid points).1 = .error msg) ∧
    (get_cached_route fetch now cache rid points).2 = cache ∧
    cacheGet (get_cached_route fetch now cache rid points).2 rid = cacheGet cache rid := by
  have herr := fetchRoute_error fetch points hfail
  cases hfr : fetchRoute fetch points with
  | error e =>
    rcases htrig with h | ⟨en, hen, hstale⟩
    · refine ⟨⟨e, ?_⟩, ?_, ?_⟩ <;> simp only [get_cached_route, refreshRoute, h, hfr]
    · refine ⟨⟨e, ?_⟩, ?_, ?_⟩ <;>
        simp only [get_cached_route, refreshRoute, hen, if_pos hstale, hfr]
  | ok raw =>
    rw [hfr] at herr
    exact absurd herr (by simp [isErr])

/-- Witness for C3: an empty cache and a fetch that times out on the single
waypoint yield a propagated error and an unchanged (still empty) cache. -/
theorem cache_refresh_failure_atomic_witness :
    (∃ msg, (get_cached_route (fun _ _ => .error "timeout") 0 [] "E4_SKEL_STH"
      [⟨"Skellefteå", 64.7507, 20.9528, 0⟩]).1 = .error msg) ∧
    (get_cached_route (fun _ _ => .error "timeout") 0 [] "E4_SKEL_STH"
      [⟨"Skellefteå", 64.7507, 20.9528, 0⟩]).2 = [] ∧
    cacheGet (get_cached_route (fun _ _ => .error "timeout") 0 [] "E4_SKEL_STH"
      [⟨"Skellefteå", 64.7507, 20.9528, 0⟩]).2 "E4_SKEL_STH" =
      cacheGet [] "E4_SKEL_STH" :=
  cache_refresh_failure_atomic (fun _ _ => .error "timeout") 0 [] "E4_SKEL_STH"
    [⟨"Skellefteå", 64.7507, 20.9528, 0⟩] (Or.inl rfl)
    ⟨⟨"Skellefteå", 64.7507, 20.9528, 0⟩, List.mem_cons_self _ _, rfl⟩

/-- C5: a lookup that hits a fresh entry (age within the TTL) returns that
entry and leaves the whole cache unchanged; it is independent of the fetch
function (no upstream fetch is performed); a second lookup within the TTL
window returns the same entry, hence an identical fetch timestamp; and any
lookup for a route id leaves the entries of all other route ids unchanged. -/
theorem cache_fresh_hit (fetch : Fetch) (now : ℚ) (cache : Cache) (rid : String)
    (points : List Waypoint) (e : Entry)
    (he : cacheGet cache rid = some e) (hfresh : now - e.ts ≤ TTL) :
    get_cached_route fetch now cache rid points = (.ok e, cache) ∧
    (∀ g : Fetch, ∀ pts : List Waypoint,
      get_cached_route g now cache rid pts = get_cached_route fetch now cache rid points) ∧
    (∀ (g : Fetch) (now₂ : ℚ) (pts : List Waypoint), now₂ - e.ts ≤ TTL →
      (get_cached_route g now₂ (get_cached_route fetch now cache rid points).2 rid pts).1 =
        .ok e) ∧
    (∀ (g : Fetch) (now₂ : ℚ) (pts : List Waypoint) (rid₂ : String), rid₂ ≠ rid →
      cacheGet (get_cached_route g now₂ cache rid pts).2 rid₂ = cacheGet cache rid₂) := by
  have hhit : get_cached_route fetch now cache rid points = (.ok e, cache) := by
    simp only [get_cached_route, he, if_neg (not_lt.mpr hfresh)]
  refine ⟨hhit, ?_, ?_, ?_⟩
  · intro g pts
    rw [hhit]
    simp only [get_cached_route, he, if_neg (not_lt.mpr hfresh)]
  · intro g now₂ pts hfresh₂
    rw [hhit]
    simp only [get_cached_route, he, if_neg (not_lt.mpr hfresh₂)]
  · intro g now₂ pts rid₂ hne
    cases hc : cacheGet cache rid with
    | none =>
      simp only [get_cached_route, refreshRoute, hc]
      cases hfr : fetchRoute g pts with
      | error msg => rfl
      | ok raw => exact cacheGet_set_other cache rid rid₂ ⟨now₂, raw⟩ hne
    | some en =>
      simp only [get_cached_route, refreshRoute, hc]
      by_cases hst : now₂ - en.ts > TTL
      · rw [if_pos hst]
        cases hfr : fetchRoute g pts with
        | error msg => rfl
        | ok raw =>
          simp only [hfr]
          exact cacheGet_set_other cache rid rid₂ ⟨now₂, raw⟩ hne
      · rw [if_neg hst]

/-- Witness for C5: a cache holding an entry fetched at `ts = 0`, looked up at
`now = 100` (within the TTL), is served unchanged with a failing fetch
function. -/
theorem cache_fresh_hit_witness :
    get_cached_route (fun _ _ => .error "timeout") 100
        [("E4_SKEL_STH", ⟨0, []⟩)] "E4_SKEL_STH" [] =
      (.ok ⟨0, []⟩, [("E4_SKEL_STH", ⟨0, []⟩)]) :=
  (cache_fresh_hit (fun _ _ => .error "timeout") 100 [("E4_SKEL_STH", ⟨0, []⟩)]
    "E4_SKEL_STH" [] ⟨0, []⟩ rfl (by norm_num [TTL])).1

/-! ## Route registry and request-input normalisation (`src/app.py` lines
14-49 and 162-174) -/

/-- The static `ROUTES` table: identifier, display label, ordered waypoints
with incremental distances in km. -/
def ROUTES : List (String × String × List Waypoint) :=
  [("E4_SKEL_STH", "E4: Skellefteå → Stockholm",
    [⟨"Skellefteå", 64.7507, 20.9528, 0⟩,
     ⟨"Umeå", 63.8258, 20.2630, 140⟩,
     ⟨"Örnsköldsvik", 63.2909, 18.7153, 115⟩,
     ⟨"Sundsvall", 62.3908, 17.3069, 110⟩,
     ⟨"Hudiksvall", 61.7274, 17.1056, 100⟩,
     ⟨"Gävle", 60.6745, 17.1417, 90⟩,
     ⟨"Uppsala", 59.8586, 17.6389, 95⟩,
     ⟨"Stockholm", 59.3293, 18.0686, 70⟩]),
   ("E6_GBG_MLM", "E6: Göteborg → Malmö",
    [⟨"Göteborg", 57.7089, 11.9746, 0⟩,
     ⟨"Kungsbacka", 57.4872, 12.0761, 30⟩,
     ⟨"Varberg", 57.1056, 12.2508, 55⟩,
     ⟨"Halmstad", 56.6744, 12.8578, 70⟩,
     ⟨"Helsingborg", 56.0465, 12.6945, 100⟩,
     ⟨"Malmö", 55.6050, 13.0038, 70⟩]),
   ("E18_KSD_STH", "E18: Karlstad → Stockholm",
    [⟨"Karlstad", 59.3793, 13.5036, 0⟩,
     ⟨"Örebro", 59.2753, 15.2134, 110⟩,
     ⟨"Västerås", 59.6099, 16.5448, 90⟩,
     ⟨"Enköping", 59.6361, 17.0777, 35⟩,
     ⟨"Stockholm", 59.3293, 18.0686, 80⟩])]

/-- Registry lookup, `ROUTES[route_id]`. -/
def lookupRoute : List (String × String × List Waypoint) → String →
    Option (String × List Waypoint)
  | [], _ => none
  | (k, label, pts) :: rest, rid =>
    if k = rid then some (label, pts) else lookupRoute rest rid

/-- Python `route_id = request.args.get("route", "E4_SKEL_STH")` followed by the
`if route_id not in ROUTES` fallback (source lines 164-166). -/
def resolveRoute (r? : Option String) : String :=
  match lookupRoute ROUTES (r?.getD "E4_SKEL_STH") with
  | some _ => r?.getD "E4_SKEL_STH"
  | none => "E4_SKEL_STH"

/-- The points of a registered route id (empty only off the registry). -/
def routePoints (rid : String) : List Waypoint :=
  match lookupRoute ROUTES rid with
  | some (_, pts) => pts
  | none => []

/-- Outcome of Python `float(str)`: `none` is a raised `ValueError`,
`some none` is NaN (`float("nan")` succeeds), `some (some v)` is a finite
value. Infinities are not representable in `ℚ` and are not modelled:
`float("inf")` is kept by the `<= 0` test like any positive value and the
handler's later arithmetic on it does not raise (`(cum/inf)*3600 = 0.0`),
while `float("-inf")` is replaced by the default like any non-positive
value. -/
abbrev FloatParse := String → Option PyFloat

/-- Python `speed_kmh = float(request.args.get("speed", "85"))` with the
non-positive and exception fallbacks (source lines 169-174); `float("85") = 85`
is the `args.get` default. The `<= 0` test is the NaN-false Python comparison:
a NaN speed is *kept*, not replaced. -/
def resolveSpeed (floatParse : FloatParse) (s? : Option String) : PyFloat :=
  match floatParse (s?.getD "85") with
  | none => some 85
  | some v => if pfLe v 0 then some 85 else v

/-- Python division on possibly-NaN floats: NaN propagates. (A zero divisor
would raise `ZeroDivisionError`, but the handler only divides by the resolved
speed, which is never the value 0 — `0 <= 0` is replaced by 85.) -/
def pfDiv (a b : PyFloat) : PyFloat :=
  match a, b with
  | some x, some y => some (x / y)
  | _, _ => none

/-- Python multiplication by a literal: NaN propagates. -/
def pfMul (a : PyFloat) (q : ℚ) : PyFloat :=
  a.map (fun x => x * q)

/-- Python `timedelta(seconds=x)`: raises `ValueError` on a NaN argument. -/
def pyTimedelta (seconds : PyFloat) : Except String ℚ :=
  match seconds with
  | none => .error "cannot convert float NaN to integer"
  | some v => .ok v

/-- The waypoint-0 iteration of the ETA loop,
`timedelta(seconds=(0.0 / speed_kmh) * 3600)` (source line 188 with
`cum_km = 0`): the step at which a NaN speed raises an uncaught `ValueError`
inside the handler. -/
def etaSeconds0 (speed : PyFloat) : Except String ℚ :=
  pyTimedelta (pfMul (pfDiv (some 0) speed) 3600)

/-- A fragment of Python `float(str)` on the strings probed below, faithful to
CPython: `float("nan")` is NaN, `float("85")` is 85, `float("abc")` raises. -/
def floatParseNan : FloatParse := fun s =>
  if s = "nan" then some none
  else if s = "85" then some (some 85)
  else none

/-- Counterexample to C8 as stated: the request parameter `speed=nan` parses
(`float("nan")` succeeds, so it is not "unparseable"), `nan <= 0` is false so
it is not replaced by the default 85 — the resolved speed is NaN — and the
very first ETA computation of the handler then raises an uncaught
`ValueError`, so this malformed input is surfaced as an error response. -/
theorem speed_nan_not_normalized :
    resolveSpeed floatParseNan (some "nan") = none ∧
    isErr (etaSeconds0 (resolveSpeed floatParseNan (some "nan"))) = true := by
  decide

/-- C8 (amended): the resolved route id is always in the registry and an
unknown or absent id resolves to the default `E4_SKEL_STH`; an unparseable
(`ValueError`) or non-positive speed resolves to the default 85, and every
speed that resolves to a finite value is positive; but a speed that parses to
NaN is kept — not normalized — and the ETA computation then raises an uncaught
`ValueError`, an error response. -/
theorem input_normalization (floatParse : FloatParse)
    (h85 : floatParse "85" = some (some 85)) :
    (∀ r? : Option String, ∃ label pts,
      lookupRoute ROUTES (resolveRoute r?) = some (label, pts)) ∧
    (∀ r : String, lookupRoute ROUTES r = none → resolveRoute (some r) = "E4_SKEL_STH") ∧
    resolveRoute none = "E4_SKEL_STH" ∧
    (∀ s : String, floatParse s = none → resolveSpeed floatParse (some s) = some 85) ∧
    (∀ (s : String) (v : ℚ), floatParse s = some (some v) → v ≤ 0 →
      resolveSpeed floatParse (some s) = some 85) ∧
    (∀ (s? : Option String) (v : ℚ), resolveSpeed floatParse s? = some v → 0 < v) ∧
    (∀ s : String, floatParse s = some none →
      resolveSpeed floatParse (some s) = none ∧
      isErr (etaSeconds0 (resolveSpeed floatParse (some s))) = true) := by
  refine ⟨?_, ?_, rfl, ?_, ?_, ?_, ?_⟩
  · intro r?
    unfold resolveRoute
    cases hl : lookupRoute ROUTES (r?.getD "E4_SKEL_STH") with
    | some lp => exact ⟨lp.1, lp.2, by rw [hl]⟩
    | none => exact ⟨"E4: Skellefteå → Stockholm", routePoints "E4_SKEL_STH", rfl⟩
  · intro r hr
    unfold resolveRoute
    simp only [Option.getD_some, hr]
  · intro s hs
    unfold resolveSpeed
    simp only [Option.getD_some, hs]
  · intro s v hs hv
    unfold resolveSpeed
    simp only [Option.getD_some, hs]
    rw [if_pos (by simp [pfLe, hv])]
  · intro s? v hv
    cases s? with
    | none =>
      unfold resolveSpeed at hv
      simp only [Option.getD_none, h85] at hv
      rw [if_neg (by simp [pfLe])] at hv
      rw [Option.some_inj.mp hv.symm] at *
      norm_num
    | some s =>
      unfold resolveSpeed at hv
      simp only [Option.getD_some] at hv
      cases hs : floatParse s with
      | none =>
        simp only [hs] at hv
        rw [Option.some_inj.mp hv.symm] at *
        norm_num
      | some w =>
        cases w with
        | none =>
          simp only [hs] at hv
          rw [if_neg (by simp [pfLe])] at hv
          exact absurd hv (by simp)
        | some x =>
          simp only [hs] at hv
          by_cases hx : x ≤ 0
          · rw [if_pos (by simp [pfLe, hx])] at hv
            rw [Option.some_inj.mp hv.symm] at *
            norm_num
          · rw [if_neg (by simp [pfLe, hx])] at hv
            rw [Option.some_inj.mp hv.symm] at *
            exact lt_of_not_le hx
  · intro s hs
    have h1 : resolveSpeed floatParse (some s) = none := by
      unfold resolveSpeed
      simp only [Option.getD_some, hs]
      rw [if_neg (by simp [pfLe])]
    exact ⟨h1, by rw [h1]; rfl⟩

/-- Witness for C8 (amended): an unknown route id resolves to the default
route, an unparseable speed resolves to 85, and the NaN speed is kept,
with the concrete `float` fragment `floatParseNan`. -/
theorem input_normalization_witness :
    resolveRoute (some "E99_NOWHERE") = "E4_SKEL_STH" ∧
    resolveSpeed floatParseNan (some "abc") = some 85 ∧
    resolveSpeed floatParseNan (some "nan") = none :=
  ⟨(input_normalization floatParseNan (by decide)).2.1 "E99_NOWHERE" (by decide),
   (input_normalization floatParseNan (by decide)).2.2.2.1 "abc" (by decide),
   ((input_normalization floatParseNan (by decide)).2.2.2.2.2.2 "nan" (by decide)).1⟩

/-! ## The fetch phase of `GET /api/status` (`src/app.py` lines 162-177)

`status` resolves the route id and then calls `get_cached_route` with no
`try`/`except` around it: a raised fetch exception propagates out of the
handler and the request fails. After the fetch phase, hourly selection, risk
classification and response assembly are total; the ETA loop raises only for
a NaN resolved speed (see `etaSeconds0` under C8), never on the fetch data —
so an *upstream* failure is client-visible exactly through this lookup. -/

/-- The failable prefix of the `status` handler: parameter resolution followed
by the cache lookup. -/
def statusFetch (fetch : Fetch) (now : ℚ) (cache : Cache) (r? : Option String) :
    Except String Entry × Cache :=
  get_cached_route fetch now cache (resolveRoute r?) (routePoints (resolveRoute r?))

lemma refreshRoute_error (fetch : Fetch) (now : ℚ) (cache : Cache) (rid : String)
    (points : List Waypoint) (msg : String) (hfr : fetchRoute fetch points = .error msg) :
    refreshRoute fetch now cache rid points = (.error msg, cache) := by
  unfold refreshRoute
  rw [hfr]

lemma refreshRoute_ok (fetch : Fetch) (now : ℚ) (cache : Cache) (rid : String)
    (points : List Waypoint) (raw : List RawItem) (hfr : fetchRoute fetch points = .ok raw) :
    refreshRoute fetch now cache rid points =
      (.ok ⟨now, raw⟩, cacheSet cache rid ⟨now, raw⟩) := by
  unfold refreshRoute
  rw [hfr]

lemma get_cached_route_none (fetch : Fetch) (now : ℚ) (cache : Cache) (rid : String)
    (points : List Waypoint) (hc : cacheGet cache rid = none) :
    get_cached_route fetch now cache rid points = refreshRoute fetch now cache rid points := by
  unfold get_cached_route
  rw [hc]

lemma get_cached_route_stale (fetch : Fetch) (now : ℚ) (cache : Cache) (rid : String)
    (points : List Waypoint) (e : Entry) (hc : cacheGet cache rid = some e)
    (hst : now - e.ts > TTL) :
    get_cached_route fetch now cache rid points = refreshRoute fetch now cache rid points := by
  unfold get_cached_route
  rw [hc]
  simp only [if_pos hst]

lemma get_cached_route_fresh (fetch : Fetch) (now : ℚ) (cache : Cache) (rid : String)
    (points : List Waypoint) (e : Entry) (hc : cacheGet cache rid = some e)
    (hst : ¬now - e.ts > TTL) :
    get_cached_route fetch now cache rid points = (.ok e, cache) := by
  unfold get_cached_route
  rw [hc]
  simp only [if_neg hst]

/-- Counterexample to C4 as stated: a prior cache entry for the (default)
route exists — fetched at `ts = 0` — yet the request at `now = 1000` fails,
because the entry is stale, the refresh is triggered, and the upstream fetch
fails. A prior entry prevents a client-visible failure only while it is
fresh. -/
theorem status_failure_despite_prior_entry :
    cacheGet [("E4_SKEL_STH", ⟨0, []⟩)] (resolveRoute (some "E4_SKEL_STH")) =
      some ⟨0, []⟩ ∧
    (statusFetch (fun _ _ => .error "timeout") 1000 [("E4_SKEL_STH", ⟨0, []⟩)]
      (some "E4_SKEL_STH")).1 = .error "timeout" := by
  have hres : resolveRoute (some "E4_SKEL_STH") = "E4_SKEL_STH" := by decide
  have hcg : cacheGet [("E4_SKEL_STH", (⟨0, []⟩ : Entry))] "E4_SKEL_STH" =
      some ⟨0, []⟩ := by
    simp [cacheGet]
  refine ⟨by rw [hres]; exact hcg, ?_⟩
  unfold statusFetch
  rw [hres,
    get_cached_route_stale _ 1000 _ "E4_SKEL_STH" _ ⟨0, []⟩ hcg (by norm_num [TTL]),
    refreshRoute_error _ _ _ _ _ "timeout" (by rfl)]

/-- C4 (amended): an upstream fetch failure is client-visible as a failure of
the triggering request exactly when the refresh is triggered — no prior entry
for the resolved route id, or a prior entry older than the TTL; a fresh prior
entry is served without any fetch, and a failed refresh leaves the cache
untouched. -/
theorem status_failure_iff_refresh_fails (fetch : Fetch) (now : ℚ) (cache : Cache)
    (r? : Option String) :
    (∀ e, cacheGet cache (resolveRoute r?) = some e → now - e.ts ≤ TTL →
      (statusFetch fetch now cache r?).1 = .ok e) ∧
    (∀ msg, (statusFetch fetch now cache r?).1 = .error msg →
      (cacheGet cache (resolveRoute r?) = none ∨
        ∃ e, cacheGet cache (resolveRoute r?) = some e ∧ now - e.ts > TTL) ∧
      fetchRoute fetch (routePoints (resolveRoute r?)) = .error msg ∧
      (statusFetch fetch now cache r?).2 = cache) := by
  constructor
  · intro e he hfresh
    unfold statusFetch
    rw [get_cached_route_fresh _ _ _ _ _ e he (not_lt.mpr hfresh)]
  · intro msg hmsg
    unfold statusFetch at hmsg ⊢
    cases hc : cacheGet cache (resolveRoute r?) with
    | none =>
      rw [get_cached_route_none _ _ _ _ _ hc] at hmsg ⊢
      cases hfr : fetchRoute fetch (routePoints (resolveRoute r?)) with
      | error e =>
        rw [refreshRoute_error _ _ _ _ _ _ hfr] at hmsg ⊢
        exact ⟨Or.inl rfl, by simpa using hmsg, rfl⟩
      | ok raw =>
        rw [refreshRoute_ok _ _ _ _ _ _ hfr] at hmsg
        exact absurd hmsg (by simp)
    | some en =>
      by_cases hst : now - en.ts > TTL
      · rw [get_cached_route_stale _ _ _ _ _ en hc hst] at hmsg ⊢
        cases hfr : fetchRoute fetch (routePoints (resolveRoute r?)) with
        | error e =>
          rw [refreshRoute_error _ _ _ _ _ _ hfr] at hmsg ⊢
          exact ⟨Or.inr ⟨en, rfl, hst⟩, by simpa using hmsg, rfl⟩
        | ok raw =>
          rw [refreshRoute_ok _ _ _ _ _ _ hfr] at hmsg
          exact absurd hmsg (by simp)
      · rw [get_cached_route_fresh _ _ _ _ _ en hc hst] at hmsg
        exact absurd hmsg (by simp)

/-- Witness for C4 (amended): a fresh prior entry (`ts = 0`, `now = 100`) is
served without failure even though the fetch function always fails. -/
theorem status_failure_iff_refresh_fails_witness :
    (statusFetch (fun _ _ => .error "timeout") 100 [("E4_SKEL_STH", ⟨0, []⟩)]
      none).1 = .ok ⟨0, []⟩ :=
  (status_failure_iff_refresh_fails (fun _ _ => .error "timeout") 100
    [("E4_SKEL_STH", ⟨0, []⟩)] none).1 ⟨0, []⟩ rfl (by norm_num [TTL])

/-! ## ETA Planner (`src/app.py` lines 180-189)

Instants are `ℚ` seconds; `start + timedelta(seconds=(cum_km / speed_kmh) *
3600)` is start plus the duration `(cum / speed) * 3600` seconds. `speed` is
the resolved (positive) speed, so the `ℚ` division is the Python one. -/

/-- The `i > 0` iterations of the ETA loop: running cumulative distance,
emitting `(eta_seconds, cum_km)` per waypoint. -/
def etaTail (start speed : ℚ) : List Waypoint → ℚ → List (ℚ × ℚ)
  | [], _ => []
  | p :: ps, cum =>
    (start + (cum + p.distance_km_from_prev) / speed * 3600,
      cum + p.distance_km_from_prev) :: etaTail start speed ps (cum + p.distance_km_from_prev)

/-- The ETA loop of `status` (source lines 180-189): waypoint 0 resets the
cumulative distance to 0 — its own `distance_km_from_prev` is not added. -/
def etas (points : List Waypoint) (start speed : ℚ) : List (ℚ × ℚ) :=
  match points with
  | [] => []
  | _ :: rest => (start + 0 / speed * 3600, 0) :: etaTail start speed rest 0

/-- Prefix sum of `distance_km_from_prev` over waypoints `0..i`. -/
def sumDist (points : List Waypoint) (i : ℕ) : ℚ :=
  ((points.take (i + 1)).map (·.distance_km_from_prev)).sum

lemma etaTail_length (start speed : ℚ) (ps : List Waypoint) :
    ∀ cum : ℚ, (etaTail start speed ps cum).length = ps.length := by
  induction ps with
  | nil => intro cum; rfl
  | cons p ps ih => intro cum; simp [etaTail, ih]

lemma etaTail_getD (start speed : ℚ) (ps : List Waypoint) :
    ∀ (cum : ℚ) (i : ℕ), i < ps.length →
      (etaTail start speed ps cum).getD i (0, 0) =
        (start + (cum + ((ps.take (i + 1)).map (·.distance_km_from_prev)).sum) / speed * 3600,
          cum + ((ps.take (i + 1)).map (·.distance_km_from_prev)).sum) := by
  induction ps with
  | nil => intro cum i hi; exact absurd hi (by simp)
  | cons p ps ih =>
    intro cum i hi
    cases i with
    | zero => simp [etaTail]
    | succ k =>
      have hk : k < ps.length := by simpa using Nat.lt_of_succ_lt_succ hi
      rw [etaTail, List.getD_cons_succ, ih (cum + p.distance_km_from_prev) k hk,
        List.take_succ_cons, List.map_cons, List.sum_cons, Prod.mk.injEq]
      exact ⟨by ring, by ring⟩

/-- C6: for every route whose first waypoint has incremental distance 0 (all
registry routes), every start instant and every speed, the ETA loop emits one
pair per waypoint; waypoint 0 gets cumulative distance 0 and arrival exactly
`start`; and waypoint `i` gets cumulative distance equal to the prefix sum of
`distance_km_from_prev` over waypoints `0..i` and arrival `start +
(cum/speed) * 3600` seconds, i.e. start plus `cum/speed` hours as a
duration. -/
theorem etas_spec (p0 : Waypoint) (rest : List Waypoint) (start speed : ℚ)
    (h0 : p0.distance_km_from_prev = 0) :
    (etas (p0 :: rest) start speed).length = (p0 :: rest).length ∧
    (etas (p0 :: rest) start speed).getD 0 (0, 0) = (start, 0) ∧
    (∀ i, i < (p0 :: rest).length →
      (etas (p0 :: rest) start speed).getD i (0, 0) =
        (start + sumDist (p0 :: rest) i / speed * 3600, sumDist (p0 :: rest) i)) := by
  refine ⟨by simp [etas, etaTail_length], by simp [etas], ?_⟩
  intro i hi
  cases i with
  | zero => simp [etas, sumDist, h0]
  | succ k =>
    have hk : k < rest.length := by simpa using Nat.lt_of_succ_lt_succ hi
    rw [etas, List.getD_cons_succ, etaTail_getD start speed rest 0 k hk]
    unfold sumDist
    rw [List.take_succ_cons, List.map_cons, List.sum_cons, h0, Prod.mk.injEq]
    exact ⟨by ring, by ring⟩

/-- Witness for C6: start 0, speed 85 km/h, second waypoint 85 km from the
first — it arrives exactly one hour (3600 s) after the start. -/
theorem etas_spec_witness :
    (etas [⟨"Skellefteå", 64.7507, 20.9528, 0⟩, ⟨"Umeå", 63.8258, 20.2630, 85⟩]
      0 85).getD 1 (0, 0) = (3600, 85) := by
  have h := (etas_spec ⟨"Skellefteå", 64.7507, 20.9528, 0⟩
    [⟨"Umeå", 63.8258, 20.2630, 85⟩] 0 85 rfl).2.2 1 (by norm_num)
  rw [h]
  norm_num [sumDist]

end E4
